import Mathlib

/-!
# DotIO: route table, device registry and frame-dispatch loop

A shallow embedding of `src/dotio.go` (package `dotio`): the registration entry
points `Post` and `Put`, the device registry handled by `deviceHanler` and
`deleteDevice`, and the per-connection loop `load` together with the request
task it starts at every sentinel frame.

Conventions of the embedding.

* A Go map is an association list with at most one entry per key, read with
  `mapGet` (the comma-ok lookup), written with `mapSet` and `mapDelete`.
* The connection is split in its read side (`Inbound`, the outcomes the
  successive `Read` calls will give) and its write side (`Outgoing`, the
  payloads sent so far).
* Everything the code prints, logs or calls is appended to a trace of `Event`s.
* `load` starts a request task with `go` at every sentinel and goes straight
  back to `Read` on the same stream, with nothing that makes either wait for
  the other. A session is therefore a transition system: `loopStep` is one
  iteration of the `for` loop, `taskStep` is one started request task, and a
  schedule (a list of `Pick`s) tells which of the two moves next. Statements
  about sessions are made for every schedule, or for the schedules named.
  A request task is one step: the reads and sends of its handler are not
  interleaved with those of the loop.
-/

namespace Dotio

/-! ## Frame codec (package `packet`) -/

/-- Identity of a remote peer: the `net.Addr` value used as the registry key. -/
abbrev Addr := Nat

/-- Modelled from the spec: one primitive field of a frame payload (package
`packet` is not among the sources). The spec says a payload is read as
length-prefixed strings "and other primitive fields in sequence"; the status
code is a single 4-byte integer. -/
inductive Field where
  | str (s : String)
  | int32 (v : Int)
  deriving DecidableEq, Repr

/-- Modelled from the spec: the payload of a frame, a sequence of fields read
front to back. -/
abbrev PkBuf := List Field

/-- Modelled from the spec: `PkBuf.ReadString` extracts the next length-prefixed
string of a payload and advances the reader. The code uses its single result as
a string; on a payload whose next field is not a string the empty string is
returned and the reader stays where it is. -/
def ReadString : PkBuf → String × PkBuf
  | Field.str s :: rest => (s, rest)
  | buf => ("", buf)

/-- Modelled from the spec: `packet.WriteInt32 v`, the payload that carries the
single 4-byte integer `v`. -/
def WriteInt32 (v : Int) : PkBuf := [Field.int32 v]

/-- The constant `math.MaxInt32`, the id of a sentinel frame. -/
def MaxInt32 : Int := 2147483647

/-- Modelled from the spec: the outcome of one `Inbound.Read`, either a frame
(its 32-bit id and its payload reader) or an error. -/
inductive ReadResult where
  | frame (id : Int) (buf : PkBuf)
  | fail (err : String)
  deriving DecidableEq, Repr

/-- Modelled from the spec: the read side of a connection, as the outcomes its
next `Read` calls will produce. When none is left the peer has disconnected. -/
structure Inbound where
  pending : List ReadResult
  deriving DecidableEq, Repr

/-- Modelled from the spec: the write side of a connection, as the payloads
sent on it so far, oldest first. -/
structure Outgoing where
  sent : List PkBuf
  deriving DecidableEq, Repr

/-- Modelled from the spec: `ib.Read()` blocks until a frame arrives or the
connection errors. It consumes the next outcome; on a connection the peer has
left it fails with `EOF`, every time. -/
def Inbound.Read (ib : Inbound) : ReadResult × Inbound :=
  match ib.pending with
  | [] => (ReadResult.fail "EOF", ib)
  | r :: rest => (r, { pending := rest })

/-- Modelled from the spec: `og.Write()` followed by `res.Sent buf` transmits one
frame with payload `buf`. -/
def Outgoing.Sent (og : Outgoing) (buf : PkBuf) : Outgoing :=
  { sent := og.sent ++ [buf] }

/-! ## Data model -/

/-- What one run of a handler does: how many `Read` calls it made on the inbound
stream, which payloads it sent on the outgoing stream, and the error it
returned (`none` for `nil`). -/
structure CallbackResult where
  reads : Nat
  sends : List PkBuf
  err : Option String
  deriving DecidableEq, Repr

/-- The type `func(ib *packet.Inbound, og *packet.Outgoing) error`. -/
abbrev Callback := Inbound → Outgoing → CallbackResult

/-- The struct `route`. -/
structure route where
  method : String
  callback : Callback

/-- The struct `device`: `ib` and `og` wrap the two sides of `conn`. -/
structure device where
  addr : Addr
  ib : Inbound
  og : Outgoing
  deriving DecidableEq, Repr

/-- An accepted `*net.TCPConn`: its remote address, what its reads will give and
what has been written to it. -/
structure TCPConn where
  RemoteAddr : Addr
  incoming : List ReadResult
  outgoing : List PkBuf
  deriving DecidableEq, Repr

/-- The observable actions of the package, in the order they happen.

* `register`: the line printed by `fmt.Printf` at the start of `Post` and `Put`;
* `alreadyExists`: the error logged when the key is already registered;
* `devices`: the registry logged by `deviceHanler` and `deleteDevice`, as its keys;
* `error`: an error logged by `load`;
* `request`: the request line logged before the route lookup;
* `missing`: the error logged when no route is stored under the key;
* `call`: the invocation of the callback of the route stored under the key. -/
inductive Event where
  | register (method path : String)
  | alreadyExists (method path : String)
  | devices (addrs : List Addr)
  | error (err : String)
  | request (addr : Addr) (path method : String)
  | missing (method path : String)
  | call (method path : String)
  deriving DecidableEq, Repr

/-! ## Go maps -/

/-- The lookup `v, ok := m[key]`. -/
def mapGet {K V : Type} [DecidableEq K] : List (K × V) → K → Option V
  | [], _ => none
  | (k, v) :: m, key => if k = key then some v else mapGet m key

/-- The builtin `delete(m, key)`. -/
def mapDelete {K V : Type} [DecidableEq K] (m : List (K × V)) (key : K) : List (K × V) :=
  m.filter (fun e => decide (e.1 ≠ key))

/-- The assignment `m[key] = v`. -/
def mapSet {K V : Type} [DecidableEq K] (m : List (K × V)) (key : K) (v : V) : List (K × V) :=
  (key, v) :: mapDelete m key

/-- The struct `Application`, without the listener and the synchronisation
primitives, and with the trace of what it has printed, logged and called. -/
structure Application where
  devices : List (Addr × device)
  routes : List ((String × String) × route)
  trace : List Event

/-! ## Registration -/

/-- The method `Application.Post`. -/
def Application.Post (a : Application) (path : String) (callback : Callback) : Application :=
  let method := "post"
  let a1 : Application := { a with trace := a.trace ++ [Event.register method path] }
  match mapGet a1.routes (method, path) with
  | some _ => { a1 with trace := a1.trace ++ [Event.alreadyExists method path] }
  | none =>
    let newRoute : route := { method := method, callback := callback }
    { a1 with routes := mapSet a1.routes (method, path) newRoute }

/-- The method `Application.Put`. -/
def Application.Put (a : Application) (path : String) (callback : Callback) : Application :=
  let method := "put"
  let a1 : Application := { a with trace := a.trace ++ [Event.register method path] }
  match mapGet a1.routes (method, path) with
  | some _ => { a1 with trace := a1.trace ++ [Event.alreadyExists method path] }
  | none =>
    let newRoute : route := { method := method, callback := callback }
    { a1 with routes := mapSet a1.routes (method, path) newRoute }

/-! ## The session loop -/

/-- The function literal started with `go` in `load`: read the frame after the
sentinel and, when its id is `0`, dispatch it. -/
def loadFunc1 (routes : List ((String × String) × route)) (addr : Addr)
    (d : device) (tr : List Event) : device × List Event :=
  match d.ib.Read with
  | (ReadResult.fail e, ib1) => ({ d with ib := ib1 }, tr ++ [Event.error e])
  | (ReadResult.frame id firstPkBuf, ib1) =>
    if id = 0 then
      let r1 := ReadString firstPkBuf
      let method := r1.1
      let path := (ReadString r1.2).1
      let tr1 := tr ++ [Event.request addr path method]
      match mapGet routes (method, path) with
      | some rt =>
        let res := rt.callback ib1 d.og
        let ib2 : Inbound := { pending := ib1.pending.drop res.reads }
        let og2 : Outgoing := { sent := d.og.sent ++ res.sends }
        let tr2 := tr1 ++ [Event.call method path]
        match res.err with
        | some e => ({ d with ib := ib2, og := og2 }, tr2 ++ [Event.error e])
        | none => ({ d with ib := ib2, og := og2.Sent (WriteInt32 0) }, tr2)
      | none =>
        ({ d with ib := ib1, og := d.og.Sent (WriteInt32 1) },
          tr1 ++ [Event.missing method path])
    else ({ d with ib := ib1 }, tr)

/-- The goroutines of one session: the `for` loop of `load`, and the request
tasks it has started with `go`. -/
inductive Pick where
  | loop
  | task
  deriving DecidableEq, Repr

/-- The state of one session: the device (`device` in `load`, shared by the loop
and the request tasks), the trace so far, whether the `for` loop is still
running (`false` once it has left through `break`), and the number of request
tasks that have been started and have not run yet. -/
structure Session where
  dev : device
  trace : List Event
  looping : Bool
  tasks : Nat
  deriving DecidableEq, Repr

/-- One iteration of the `for` loop of `load`: a failed read is logged and the
loop leaves through `break`; a frame whose id is not `math.MaxInt32` is dropped
(`continue`); at a sentinel a request task is started and the loop goes back to
`Read` without waiting for it. -/
def loopStep (s : Session) : Session :=
  match s.dev.ib.Read with
  | (ReadResult.fail e, ib1) =>
    { s with dev := { s.dev with ib := ib1 }, trace := s.trace ++ [Event.error e],
             looping := false }
  | (ReadResult.frame reqConnPkBufId _, ib1) =>
    if reqConnPkBufId ≠ MaxInt32 then { s with dev := { s.dev with ib := ib1 } }
    else { s with dev := { s.dev with ib := ib1 }, tasks := s.tasks + 1 }

/-- One started request task runs: the body `loadFunc1` on the shared device. -/
def taskStep (routes : List ((String × String) × route)) (addr : Addr) (s : Session) : Session :=
  let r := loadFunc1 routes addr s.dev s.trace
  { s with dev := r.1, trace := r.2, tasks := s.tasks - 1 }

/-- The goroutine picked moves, when it can: the loop while it is running, a
request task when one has been started and has not run yet. -/
def step (routes : List ((String × String) × route)) (addr : Addr) : Pick → Session → Session
  | Pick.loop, s => if s.looping then loopStep s else s
  | Pick.task, s => if 0 < s.tasks then taskStep routes addr s else s

/-- The session under a schedule: the goroutines move in the order given. -/
def run (routes : List ((String × String) × route)) (addr : Addr) :
    List Pick → Session → Session
  | [], s => s
  | p :: sched, s => run routes addr sched (step routes addr p s)

/-- The `for` loop moving alone, for at most `fuel` iterations. -/
def loopOnly : Nat → Session → Session
  | 0, s => s
  | fuel + 1, s => if s.looping then loopOnly fuel (loopStep s) else s

/-- The session under a schedule up to the moment the `for` loop leaves through
`break`, which is when `load` returns. Once the schedule is used up the loop
moves alone; every iteration that does not leave the loop consumes a pending
read, so one iteration more than there are pending reads reaches the `break`. -/
def runUntilBreak (routes : List ((String × String) × route)) (addr : Addr) :
    List Pick → Session → Session
  | [], s => loopOnly (s.dev.ib.pending.length + 1) s
  | p :: sched, s => if s.looping then runUntilBreak routes addr sched (step routes addr p s) else s

/-- The method `Application.load`, under a schedule of its goroutines. Without a
device under `addr` the first `device.ib` dereferences a nil pointer (`none`).
Otherwise the result is the application at the moment `load` returns; request
tasks that have not run by then go on after the return and are not followed. -/
def Application.load (a : Application) (addr : Addr) (sched : List Pick) : Option Application :=
  match mapGet a.devices addr with
  | none => none
  | some d =>
    let s := runUntilBreak a.routes addr sched
      { dev := d, trace := a.trace, looping := true, tasks := 0 }
    some { a with devices := mapSet a.devices addr s.dev, trace := s.trace }

/-- The method `Application.deleteDevice`. -/
def Application.deleteDevice (a : Application) (addr : Addr) : Application :=
  let devices := mapDelete a.devices addr
  { a with devices := devices, trace := a.trace ++ [Event.devices (devices.map Prod.fst)] }

/-- The device `deviceHanler` builds for a connection (`newDevice` in the source). -/
def newDevice (conn : TCPConn) : device :=
  { addr := conn.RemoteAddr, ib := { pending := conn.incoming }, og := { sent := conn.outgoing } }

/-- The first statements of the create branch of `deviceHanler`: the new device
is stored under the remote address and the registry is logged. -/
def Application.storeDevice (a : Application) (conn : TCPConn) : Application :=
  let addr := conn.RemoteAddr
  let devices := mapSet a.devices addr (newDevice conn)
  { a with devices := devices, trace := a.trace ++ [Event.devices (devices.map Prod.fst)] }

/-- The method `Application.deviceHanler`, under a schedule of the goroutines of
its session. With a device already stored under the remote address nothing is
done. Otherwise the device is stored and `load` runs; the `defer` is reached
once `load` has returned, so `deleteDevice` runs when the method returns. -/
def Application.deviceHanler (a : Application) (conn : TCPConn) (sched : List Pick) :
    Option Application :=
  match mapGet a.devices conn.RemoteAddr with
  | some _ => some a
  | none =>
    match (a.storeDevice conn).load conn.RemoteAddr sched with
    | none => none
    | some a2 => some (a2.deleteDevice conn.RemoteAddr)

/-! ## Example data -/

/-- A handler that reads nothing, writes nothing and returns no error. -/
def okHandler : Callback := fun _ _ => { reads := 0, sends := [], err := none }

/-- A handler that reads nothing, writes nothing and returns an error. -/
def failingHandler : Callback := fun _ _ => { reads := 0, sends := [], err := some "boom" }

/-- The application right after `New`: no device, no route, nothing logged. -/
def emptyApp : Application := { devices := [], routes := [], trace := [] }

/-- An application with a failing handler registered under `post /ping`. -/
def pingApp : Application := emptyApp.Post "/ping" failingHandler

/-- An application with a handler that succeeds registered under `post /ping`. -/
def okApp : Application := emptyApp.Post "/ping" okHandler

/-- A sentinel frame. -/
def sentinelFrame : ReadResult := ReadResult.frame MaxInt32 []

/-- The envelope frame of a request for `(verb, path)`. -/
def envelopeFrame (verb path : String) : ReadResult :=
  ReadResult.frame 0 [Field.str verb, Field.str path]

/-- A device with address `7`, the given pending reads and nothing sent. -/
def deviceWith (pending : List ReadResult) : device :=
  { addr := 7, ib := { pending := pending }, og := { sent := [] } }

/-- A connection from address `7` that sends one request for `post /ping` and
then disconnects. -/
def pingConn : TCPConn :=
  { RemoteAddr := 7, incoming := [sentinelFrame, envelopeFrame "post" "/ping"], outgoing := [] }

/-- A session at its start, on a device with address `7` and the given pending
reads: the loop is running and no request task has been started. -/
def startSession (pending : List ReadResult) : Session :=
  { dev := deviceWith pending, trace := [], looping := true, tasks := 0 }

/-- An application serving `post /ping` with one device, under address `7`,
whose reads will give: a frame with id `3`, a sentinel, the envelope of a
request for `post /ping`. -/
def noiseApp : Application :=
  { okApp with
    devices := [(7, deviceWith [ReadResult.frame 3 [], sentinelFrame,
      envelopeFrame "post" "/ping"])],
    trace := [] }

/-! ## Lemmas on Go maps -/

section MapLemmas

variable {K V : Type} [DecidableEq K]

theorem mapGet_mapDelete_self (m : List (K × V)) (key : K) :
    mapGet (mapDelete m key) key = none := by
  induction m with
  | nil => rfl
  | cons e m ih =>
    obtain ⟨k, v⟩ := e
    by_cases h : k = key
    · simpa [mapDelete, List.filter_cons, h] using ih
    · simpa [mapDelete, List.filter_cons, h, mapGet] using ih

theorem mapGet_mapDelete_ne (m : List (K × V)) {key k : K} (h : key ≠ k) :
    mapGet (mapDelete m key) k = mapGet m k := by
  induction m with
  | nil => rfl
  | cons e m ih =>
    obtain ⟨k1, v⟩ := e
    by_cases h1 : k1 = key
    · subst h1
      simpa [mapDelete, List.filter_cons, mapGet, h] using ih
    · by_cases h2 : k1 = k
      · subst h2
        simp [mapDelete, List.filter_cons, mapGet, h1]
      · simpa [mapDelete, List.filter_cons, mapGet, h1, h2] using ih

theorem mapGet_mapSet_self (m : List (K × V)) (key : K) (v : V) :
    mapGet (mapSet m key v) key = some v := by
  simp [mapSet, mapGet]

theorem mapGet_mapSet_ne (m : List (K × V)) {key k : K} (v : V) (h : key ≠ k) :
    mapGet (mapSet m key v) k = mapGet m k := by
  simp [mapSet, mapGet, h, mapGet_mapDelete_ne m h]

theorem mapDelete_mapSet (m : List (K × V)) (key : K) (v : V) :
    mapDelete (mapSet m key v) key = mapDelete m key := by
  simp [mapSet, mapDelete, List.filter_cons, List.filter_filter]

theorem mapSet_mapSet (m : List (K × V)) (key : K) (v w : V) :
    mapSet (mapSet m key v) key w = mapSet m key w := by
  show (key, w) :: mapDelete (mapSet m key v) key = _
  rw [mapDelete_mapSet]
  rfl

end MapLemmas

/-! ## Lemmas on registration -/

theorem Post_routes_of_some (a : Application) (path : String) (h : Callback) (r : route)
    (hk : mapGet a.routes ("post", path) = some r) : (a.Post path h).routes = a.routes := by
  simp [Application.Post, hk]

theorem Post_routes_of_none (a : Application) (path : String) (h : Callback)
    (hk : mapGet a.routes ("post", path) = none) :
    (a.Post path h).routes = mapSet a.routes ("post", path) { method := "post", callback := h } := by
  simp [Application.Post, hk]

theorem Put_routes_of_some (a : Application) (path : String) (h : Callback) (r : route)
    (hk : mapGet a.routes ("put", path) = some r) : (a.Put path h).routes = a.routes := by
  simp [Application.Put, hk]

theorem Put_routes_of_none (a : Application) (path : String) (h : Callback)
    (hk : mapGet a.routes ("put", path) = none) :
    (a.Put path h).routes = mapSet a.routes ("put", path) { method := "put", callback := h } := by
  simp [Application.Put, hk]

/-- After `Post` the key `("post", path)` is registered. -/
theorem Post_get_self_isSome (a : Application) (path : String) (h : Callback) :
    ∃ r, mapGet (a.Post path h).routes ("post", path) = some r := by
  cases hk : mapGet a.routes ("post", path) with
  | none => exact ⟨_, by rw [Post_routes_of_none a path h hk, mapGet_mapSet_self]⟩
  | some r => exact ⟨r, by rw [Post_routes_of_some a path h r hk, hk]⟩

/-- After `Put` the key `("put", path)` is registered. -/
theorem Put_get_self_isSome (a : Application) (path : String) (h : Callback) :
    ∃ r, mapGet (a.Put path h).routes ("put", path) = some r := by
  cases hk : mapGet a.routes ("put", path) with
  | none => exact ⟨_, by rw [Put_routes_of_none a path h hk, mapGet_mapSet_self]⟩
  | some r => exact ⟨r, by rw [Put_routes_of_some a path h r hk, hk]⟩

/-- The lookup of every key after `Post`. -/
theorem Post_get (a : Application) (path : String) (h : Callback) (key : String × String) :
    mapGet (a.Post path h).routes key =
      if key = ("post", path) ∧ (mapGet a.routes key).isNone
      then some { method := "post", callback := h } else mapGet a.routes key := by
  cases hk : mapGet a.routes ("post", path) with
  | none =>
    rw [Post_routes_of_none a path h hk]
    by_cases e : key = ("post", path)
    · subst e
      simp [hk, mapGet_mapSet_self]
    · have e2 : ("post", path) ≠ key := fun x => e x.symm
      simp [e, mapGet_mapSet_ne a.routes _ e2]
  | some r =>
    rw [Post_routes_of_some a path h r hk]
    by_cases e : key = ("post", path)
    · subst e
      simp [hk]
    · simp [e]

/-- The lookup of every key after `Put`. -/
theorem Put_get (a : Application) (path : String) (h : Callback) (key : String × String) :
    mapGet (a.Put path h).routes key =
      if key = ("put", path) ∧ (mapGet a.routes key).isNone
      then some { method := "put", callback := h } else mapGet a.routes key := by
  cases hk : mapGet a.routes ("put", path) with
  | none =>
    rw [Put_routes_of_none a path h hk]
    by_cases e : key = ("put", path)
    · subst e
      simp [hk, mapGet_mapSet_self]
    · have e2 : ("put", path) ≠ key := fun x => e x.symm
      simp [e, mapGet_mapSet_ne a.routes _ e2]
  | some r =>
    rw [Put_routes_of_some a path h r hk]
    by_cases e : key = ("put", path)
    · subst e
      simp [hk]
    · simp [e]

/-! ## Registration: the claims -/

/-- C1, as stated, fails: on a route table that already holds a handler under
`("post", path)`, calling `Post path h1` and then `Post path h2` does not leave
`h1` stored under that key (the handler registered before both calls stays). -/
theorem post_twice_on_registered_key_keeps_older_handler :
    ¬ ∀ (a : Application) (path : String) (h1 h2 : Callback),
        mapGet ((a.Post path h1).Post path h2).routes ("post", path)
            = some { method := "post", callback := h1 } ∧
          ((a.Post path h1).Post path h2).routes = (a.Post path h1).routes := by
  intro hall
  have h := (hall pingApp "/ping" okHandler okHandler).1
  have e : mapGet ((pingApp.Post "/ping" okHandler).Post "/ping" okHandler).routes
      ("post", "/ping") = some { method := "post", callback := failingHandler } := by
    simp [pingApp, emptyApp, Application.Post, mapGet, mapSet, mapDelete]
  rw [e] at h
  have hcb : failingHandler = okHandler := congrArg route.callback (Option.some.inj h)
  have herr := congrArg CallbackResult.err (congrFun (congrFun hcb { pending := [] }) { sent := [] })
  simp [failingHandler, okHandler] at herr

/-- C1, amended: for every route table, path and handlers `h1`, `h2`, the second
of the calls `Post path h1`, `Post path h2` leaves the whole route table
unchanged, and when `("post", path)` was not a key before the first call the
handler stored under it afterwards is `h1`; the same for `Put` and
`("put", path)`. -/
theorem register_twice_keeps_first (a : Application) (path : String) (h1 h2 : Callback) :
    (((a.Post path h1).Post path h2).routes = (a.Post path h1).routes ∧
      (mapGet a.routes ("post", path) = none →
        mapGet ((a.Post path h1).Post path h2).routes ("post", path)
          = some { method := "post", callback := h1 })) ∧
    (((a.Put path h1).Put path h2).routes = (a.Put path h1).routes ∧
      (mapGet a.routes ("put", path) = none →
        mapGet ((a.Put path h1).Put path h2).routes ("put", path)
          = some { method := "put", callback := h1 })) := by
  obtain ⟨r, hr⟩ := Post_get_self_isSome a path h1
  obtain ⟨s, hs⟩ := Put_get_self_isSome a path h1
  have e1 := Post_routes_of_some (a.Post path h1) path h2 r hr
  have e2 := Put_routes_of_some (a.Put path h1) path h2 s hs
  refine ⟨⟨e1, fun hn => ?_⟩, ⟨e2, fun hn => ?_⟩⟩
  · rw [e1, Post_routes_of_none a path h1 hn, mapGet_mapSet_self]
  · rw [e2, Put_routes_of_none a path h1 hn, mapGet_mapSet_self]

/-- Witness of `register_twice_keeps_first` on the empty route table. -/
theorem register_twice_keeps_first_witness :
    mapGet ((emptyApp.Post "/ping" okHandler).Post "/ping" failingHandler).routes
        ("post", "/ping") = some { method := "post", callback := okHandler } ∧
      mapGet ((emptyApp.Put "/ping" okHandler).Put "/ping" failingHandler).routes
        ("put", "/ping") = some { method := "put", callback := okHandler } :=
  ⟨(register_twice_keeps_first emptyApp "/ping" okHandler failingHandler).1.2 rfl,
    (register_twice_keeps_first emptyApp "/ping" okHandler failingHandler).2.2 rfl⟩

/-- C8: when `("post", path)` is not yet a key, after `Post path h` the lookup of
`("post", path)` yields `h` and the lookup of every other key, `("put", path)`
among them, is what it was before; symmetrically for `Put path h` and
`("put", path)`. -/
theorem register_inserts_and_keeps_other_keys (a : Application) (path : String) (h : Callback) :
    (mapGet a.routes ("post", path) = none →
      mapGet (a.Post path h).routes ("post", path) = some { method := "post", callback := h } ∧
      mapGet (a.Post path h).routes ("put", path) = mapGet a.routes ("put", path) ∧
      ∀ key : String × String, key ≠ ("post", path) →
        mapGet (a.Post path h).routes key = mapGet a.routes key) ∧
    (mapGet a.routes ("put", path) = none →
      mapGet (a.Put path h).routes ("put", path) = some { method := "put", callback := h } ∧
      mapGet (a.Put path h).routes ("post", path) = mapGet a.routes ("post", path) ∧
      ∀ key : String × String, key ≠ ("put", path) →
        mapGet (a.Put path h).routes key = mapGet a.routes key) := by
  constructor
  · intro hn
    have hframe : ∀ key : String × String, key ≠ ("post", path) →
        mapGet (a.Post path h).routes key = mapGet a.routes key := by
      intro key hkey
      rw [Post_get]
      simp [hkey]
    refine ⟨?_, hframe _ (by simp), hframe⟩
    rw [Post_routes_of_none a path h hn, mapGet_mapSet_self]
  · intro hn
    have hframe : ∀ key : String × String, key ≠ ("put", path) →
        mapGet (a.Put path h).routes key = mapGet a.routes key := by
      intro key hkey
      rw [Put_get]
      simp [hkey]
    refine ⟨?_, hframe _ (by simp), hframe⟩
    rw [Put_routes_of_none a path h hn, mapGet_mapSet_self]

/-- Witness of `register_inserts_and_keeps_other_keys`: `Post "/x"` and
`Put "/ping"` on a table that holds `post /ping` only. -/
theorem register_inserts_and_keeps_other_keys_witness :
    (mapGet (pingApp.Post "/x" okHandler).routes ("post", "/x")
        = some { method := "post", callback := okHandler } ∧
      mapGet (pingApp.Post "/x" okHandler).routes ("post", "/ping")
        = mapGet pingApp.routes ("post", "/ping")) ∧
    (mapGet (pingApp.Put "/ping" okHandler).routes ("put", "/ping")
        = some { method := "put", callback := okHandler } ∧
      mapGet (pingApp.Put "/ping" okHandler).routes ("post", "/ping")
        = mapGet pingApp.routes ("post", "/ping")) :=
  ⟨⟨((register_inserts_and_keeps_other_keys pingApp "/x" okHandler).1 rfl).1,
      ((register_inserts_and_keeps_other_keys pingApp "/x" okHandler).1 rfl).2.2 _ (by decide)⟩,
    ⟨((register_inserts_and_keeps_other_keys pingApp "/ping" okHandler).2 rfl).1,
      ((register_inserts_and_keeps_other_keys pingApp "/ping" okHandler).2 rfl).2.1⟩⟩

/-- C9: two registrations with distinct `(verb, path)` keys give, in either
order, route tables with the same lookup at every key: two `Post`s on distinct
paths, two `Put`s on distinct paths, and a `Post` and a `Put` on any paths. -/
theorem register_order_irrelevant (a : Application) (p1 p2 : String) (h1 h2 : Callback)
    (key : String × String) :
    (p1 ≠ p2 → mapGet ((a.Post p1 h1).Post p2 h2).routes key
        = mapGet ((a.Post p2 h2).Post p1 h1).routes key) ∧
    (p1 ≠ p2 → mapGet ((a.Put p1 h1).Put p2 h2).routes key
        = mapGet ((a.Put p2 h2).Put p1 h1).routes key) ∧
    mapGet ((a.Post p1 h1).Put p2 h2).routes key
        = mapGet ((a.Put p2 h2).Post p1 h1).routes key := by
  refine ⟨fun hne => ?_, fun hne => ?_, ?_⟩
  · simp only [Post_get]
    by_cases e1 : key = ("post", p1) <;> by_cases e2 : key = ("post", p2) <;>
      cases hk : mapGet a.routes key <;> simp_all
  · simp only [Put_get]
    by_cases e1 : key = ("put", p1) <;> by_cases e2 : key = ("put", p2) <;>
      cases hk : mapGet a.routes key <;> simp_all
  · simp only [Post_get, Put_get]
    by_cases e1 : key = ("post", p1) <;> by_cases e2 : key = ("put", p2) <;>
      cases hk : mapGet a.routes key <;> simp_all

/-- Witness of `register_order_irrelevant`: `/ping` and `/x` on the empty table,
looked up at `("post", "/x")`. -/
theorem register_order_irrelevant_witness :
    mapGet ((emptyApp.Post "/ping" okHandler).Post "/x" failingHandler).routes ("post", "/x")
        = mapGet ((emptyApp.Post "/x" failingHandler).Post "/ping" okHandler).routes ("post", "/x") ∧
      mapGet ((emptyApp.Put "/ping" okHandler).Put "/x" failingHandler).routes ("post", "/x")
        = mapGet ((emptyApp.Put "/x" failingHandler).Put "/ping" okHandler).routes ("post", "/x") :=
  ⟨(register_order_irrelevant emptyApp "/ping" "/x" okHandler failingHandler ("post", "/x")).1
      (by decide),
    (register_order_irrelevant emptyApp "/ping" "/x" okHandler failingHandler ("post", "/x")).2.1
      (by decide)⟩

/-! ## Lemmas on the session loop -/

/-- The request task after a sentinel, when the next read gives a frame with id `0`. -/
theorem loadFunc1_envelope (routes : List ((String × String) × route)) (addr : Addr)
    (d : device) (tr : List Event) (buf : PkBuf) (rest : List ReadResult)
    (hp : d.ib.pending = ReadResult.frame 0 buf :: rest) :
    loadFunc1 routes addr d tr =
      match mapGet routes ((ReadString buf).1, (ReadString (ReadString buf).2).1) with
      | some rt =>
        match (rt.callback { pending := rest } d.og).err with
        | some e =>
          ({ d with
              ib := { pending := rest.drop (rt.callback { pending := rest } d.og).reads },
              og := { sent := d.og.sent ++ (rt.callback { pending := rest } d.og).sends } },
            tr ++ [Event.request addr (ReadString (ReadString buf).2).1 (ReadString buf).1]
              ++ [Event.call (ReadString buf).1 (ReadString (ReadString buf).2).1]
              ++ [Event.error e])
        | none =>
          ({ d with
              ib := { pending := rest.drop (rt.callback { pending := rest } d.og).reads },
              og := Outgoing.Sent
                { sent := d.og.sent ++ (rt.callback { pending := rest } d.og).sends }
                (WriteInt32 0) },
            tr ++ [Event.request addr (ReadString (ReadString buf).2).1 (ReadString buf).1]
              ++ [Event.call (ReadString buf).1 (ReadString (ReadString buf).2).1])
      | none =>
        ({ d with ib := { pending := rest }, og := d.og.Sent (WriteInt32 1) },
          tr ++ [Event.request addr (ReadString (ReadString buf).2).1 (ReadString buf).1]
            ++ [Event.missing (ReadString buf).1 (ReadString (ReadString buf).2).1]) := by
  simp only [loadFunc1, Inbound.Read, hp, if_true]

/-- The request task after a sentinel, when the next read gives a frame with another id. -/
theorem loadFunc1_other (routes : List ((String × String) × route)) (addr : Addr)
    (d : device) (tr : List Event) (id : Int) (buf : PkBuf) (rest : List ReadResult)
    (hp : d.ib.pending = ReadResult.frame id buf :: rest) (hid : id ≠ 0) :
    loadFunc1 routes addr d tr = ({ d with ib := { pending := rest } }, tr) := by
  simp only [loadFunc1, Inbound.Read, hp, if_neg hid]

/-- The request task after a sentinel, when the next read fails. -/
theorem loadFunc1_fail (routes : List ((String × String) × route)) (addr : Addr)
    (d : device) (tr : List Event) (e : String) (ib1 : Inbound)
    (hp : d.ib.Read = (ReadResult.fail e, ib1)) :
    loadFunc1 routes addr d tr = ({ d with ib := ib1 }, tr ++ [Event.error e]) := by
  simp only [loadFunc1, hp]

/-- A read that gives a frame has taken it from the head of the pending reads. -/
theorem Read_frame (ib ib1 : Inbound) (id : Int) (buf : PkBuf)
    (h : ib.Read = (ReadResult.frame id buf, ib1)) :
    ib.pending = ReadResult.frame id buf :: ib1.pending := by
  unfold Inbound.Read at h
  cases hp : ib.pending with
  | nil => simp [hp] at h
  | cons r rest =>
    simp only [hp, Prod.mk.injEq] at h
    rw [h.1, ← h.2]

/-- A read on a stream with a pending outcome gives that outcome. -/
theorem Read_cons (ib : Inbound) (r : ReadResult) (rest : List ReadResult)
    (h : ib.pending = r :: rest) : ib.Read = (r, { pending := rest }) := by
  simp [Inbound.Read, h]

/-- A read on a stream the peer has left fails with `EOF`. -/
theorem Read_nil (ib : Inbound) (h : ib.pending = []) : ib.Read = (ReadResult.fail "EOF", ib) := by
  simp [Inbound.Read, h]

/-- An iteration of the loop whose read fails logs the error and leaves the loop. -/
theorem loopStep_fail (s : Session) (e : String) (ib1 : Inbound)
    (h : s.dev.ib.Read = (ReadResult.fail e, ib1)) :
    loopStep s = { s with dev := { s.dev with ib := ib1 }, trace := s.trace ++ [Event.error e],
                          looping := false } := by
  simp only [loopStep, h]

/-- An iteration of the loop that reads a frame other than the sentinel drops it. -/
theorem loopStep_other (s : Session) (id : Int) (buf : PkBuf) (rest : List ReadResult)
    (hp : s.dev.ib.pending = ReadResult.frame id buf :: rest) (hid : id ≠ MaxInt32) :
    loopStep s = { s with dev := { s.dev with ib := { pending := rest } } } := by
  simp [loopStep, Read_cons _ _ _ hp, hid]

/-- An iteration of the loop that reads the sentinel starts a request task. -/
theorem loopStep_sentinel (s : Session) (buf : PkBuf) (rest : List ReadResult)
    (hp : s.dev.ib.pending = ReadResult.frame MaxInt32 buf :: rest) :
    loopStep s = { s with dev := { s.dev with ib := { pending := rest } },
                          tasks := s.tasks + 1 } := by
  simp [loopStep, Read_cons _ _ _ hp]

/-- An iteration of the loop leaves the loop exactly when its own read fails. -/
theorem loopStep_looping (s : Session) (h : s.looping = true) :
    (loopStep s).looping = false ↔ ∃ e ib1, s.dev.ib.Read = (ReadResult.fail e, ib1) := by
  rcases hr : s.dev.ib.Read with ⟨r, ib1⟩
  cases r with
  | fail e =>
    rw [loopStep_fail s e ib1 hr]
    simp
  | frame id buf =>
    have hp := Read_frame _ _ _ _ hr
    by_cases hid : id = MaxInt32
    · subst hid
      rw [loopStep_sentinel s buf _ hp]
      simp [h]
    · rw [loopStep_other s id buf _ hp hid]
      simp [h]

/-- An iteration of the loop that does not leave it has consumed a pending read. -/
theorem loopStep_pending_lt (s : Session) (h : (loopStep s).looping = true) :
    (loopStep s).dev.ib.pending.length < s.dev.ib.pending.length := by
  cases hp : s.dev.ib.pending with
  | nil =>
    rw [loopStep_fail s "EOF" s.dev.ib (Read_nil _ hp)] at h
    simp at h
  | cons r rest =>
    cases r with
    | fail e =>
      rw [loopStep_fail s e _ (Read_cons _ _ _ hp)] at h
      simp at h
    | frame id buf =>
      by_cases hid : id = MaxInt32
      · subst hid
        rw [loopStep_sentinel s buf rest hp]
        simp
      · rw [loopStep_other s id buf rest hp hid]
        simp

/-- The loop moving alone leaves through `break` within one iteration more than
there are pending reads. -/
theorem loopOnly_looping : ∀ (n : Nat) (s : Session),
    s.dev.ib.pending.length < n → (loopOnly n s).looping = false := by
  intro n
  induction n with
  | zero => intro s h; exact absurd h (Nat.not_lt_zero _)
  | succ n ih =>
    intro s h
    cases hl : s.looping with
    | false => simp [loopOnly, hl]
    | true =>
      simp only [loopOnly, hl, if_true]
      cases hl1 : (loopStep s).looping with
      | false =>
        cases n with
        | zero => simpa [loopOnly] using hl1
        | succ n => simp [loopOnly, hl1]
      | true =>
        have hlt := loopStep_pending_lt s hl1
        exact ih _ (by omega)

/-- Under every schedule `load` returns: the session reaches the `break`. -/
theorem runUntilBreak_looping (routes : List ((String × String) × route)) (addr : Addr) :
    ∀ (sched : List Pick) (s : Session), (runUntilBreak routes addr sched s).looping = false := by
  intro sched
  induction sched with
  | nil => intro s; exact loopOnly_looping _ s (Nat.lt_succ_self _)
  | cons p sched ih =>
    intro s
    cases hl : s.looping with
    | false => simp [runUntilBreak, hl]
    | true => simpa [runUntilBreak, hl] using ih _

/-- With a device under `addr`, `load` returns, under every schedule. -/
theorem load_of_device (a : Application) (addr : Addr) (d : device) (sched : List Pick)
    (hd : mapGet a.devices addr = some d) :
    a.load addr sched = some { a with
      devices := mapSet a.devices addr
        (runUntilBreak a.routes addr sched
          { dev := d, trace := a.trace, looping := true, tasks := 0 }).dev,
      trace := (runUntilBreak a.routes addr sched
          { dev := d, trace := a.trace, looping := true, tasks := 0 }).trace } := by
  simp [Application.load, hd]

/-- A request task that reads a frame with a non-zero id only consumes it. -/
theorem taskStep_other (routes : List ((String × String) × route)) (addr : Addr) (s : Session)
    (id : Int) (buf : PkBuf) (rest : List ReadResult)
    (hp : s.dev.ib.pending = ReadResult.frame id buf :: rest) (hid : id ≠ 0) :
    taskStep routes addr s =
      { s with dev := { s.dev with ib := { pending := rest } }, tasks := s.tasks - 1 } := by
  simp only [taskStep, loadFunc1_other routes addr s.dev s.trace id buf rest hp hid]

/-- A request task whose read fails logs the error and ends. -/
theorem taskStep_fail (routes : List ((String × String) × route)) (addr : Addr) (s : Session)
    (e : String) (ib1 : Inbound) (hr : s.dev.ib.Read = (ReadResult.fail e, ib1)) :
    taskStep routes addr s =
      { s with dev := { s.dev with ib := ib1 }, trace := s.trace ++ [Event.error e],
               tasks := s.tasks - 1 } := by
  simp only [taskStep, loadFunc1_fail routes addr s.dev s.trace e ib1 hr]

/-- A request task never touches the flag of the loop. -/
theorem taskStep_looping (routes : List ((String × String) × route)) (addr : Addr) (s : Session) :
    (taskStep routes addr s).looping = s.looping := rfl

/-- The loop moves when picked while it is running. -/
theorem step_loop (routes : List ((String × String) × route)) (addr : Addr) (s : Session)
    (h : s.looping = true) : step routes addr Pick.loop s = loopStep s := by
  simp [step, h]

/-- The loop does not move once it has left. -/
theorem step_loop_ended (routes : List ((String × String) × route)) (addr : Addr) (s : Session)
    (h : ¬ s.looping = true) : step routes addr Pick.loop s = s := by
  simp [step, h]

/-- A request task moves when picked while one is waiting. -/
theorem step_task (routes : List ((String × String) × route)) (addr : Addr) (s : Session)
    (h : 0 < s.tasks) : step routes addr Pick.task s = taskStep routes addr s := by
  simp [step, h]

/-- No request task moves when none is waiting. -/
theorem step_task_none (routes : List ((String × String) × route)) (addr : Addr) (s : Session)
    (h : ¬ 0 < s.tasks) : step routes addr Pick.task s = s := by
  simp [step, h]

/-- A schedule never sends anything nor logs anything but read errors on a
stream that holds no frame with id `0`. -/
theorem step_without_envelope (routes : List ((String × String) × route)) (addr : Addr)
    (p : Pick) (s : Session)
    (h : ∀ buf, ReadResult.frame 0 buf ∉ s.dev.ib.pending) :
    (∀ buf, ReadResult.frame 0 buf ∉ (step routes addr p s).dev.ib.pending) ∧
      (step routes addr p s).dev.og = s.dev.og ∧
      ((step routes addr p s).trace = s.trace ∨
        ∃ m, (step routes addr p s).trace = s.trace ++ [Event.error m]) := by
  have hkeep : (∀ buf, ReadResult.frame 0 buf ∉ s.dev.ib.pending) ∧ s.dev.og = s.dev.og ∧
      (s.trace = s.trace ∨ ∃ m, s.trace = s.trace ++ [Event.error m]) := ⟨h, rfl, Or.inl rfl⟩
  cases hp : s.dev.ib.pending with
  | nil =>
    have hr := Read_nil _ hp
    cases p with
    | loop =>
      by_cases hl : s.looping = true
      · rw [step_loop routes addr s hl, loopStep_fail s _ _ hr]
        exact ⟨h, rfl, Or.inr ⟨_, rfl⟩⟩
      · rw [step_loop_ended routes addr s hl]; exact hkeep
    | task =>
      by_cases ht : 0 < s.tasks
      · rw [step_task routes addr s ht, taskStep_fail routes addr s _ _ hr]
        exact ⟨h, rfl, Or.inr ⟨_, rfl⟩⟩
      · rw [step_task_none routes addr s ht]; exact hkeep
  | cons r rest =>
    have hrest : ∀ buf, ReadResult.frame 0 buf ∉ rest := by
      intro buf hmem
      exact h buf (by rw [hp]; exact List.mem_cons_of_mem _ hmem)
    cases r with
    | fail e =>
      have hr := Read_cons _ _ _ hp
      cases p with
      | loop =>
        by_cases hl : s.looping = true
        · rw [step_loop routes addr s hl, loopStep_fail s _ _ hr]
          exact ⟨hrest, rfl, Or.inr ⟨_, rfl⟩⟩
        · rw [step_loop_ended routes addr s hl]; exact hkeep
      | task =>
        by_cases ht : 0 < s.tasks
        · rw [step_task routes addr s ht, taskStep_fail routes addr s _ _ hr]
          exact ⟨hrest, rfl, Or.inr ⟨_, rfl⟩⟩
        · rw [step_task_none routes addr s ht]; exact hkeep
    | frame id buf =>
      have hid : id ≠ 0 := by
        intro h0
        subst h0
        exact h buf (by rw [hp]; exact List.mem_cons_self _ _)
      cases p with
      | loop =>
        by_cases hl : s.looping = true
        · by_cases hm : id = MaxInt32
          · subst hm
            rw [step_loop routes addr s hl, loopStep_sentinel s buf rest hp]
            exact ⟨hrest, rfl, Or.inl rfl⟩
          · rw [step_loop routes addr s hl, loopStep_other s id buf rest hp hm]
            exact ⟨hrest, rfl, Or.inl rfl⟩
        · rw [step_loop_ended routes addr s hl]; exact hkeep
      | task =>
        by_cases ht : 0 < s.tasks
        · rw [step_task routes addr s ht, taskStep_other routes addr s id buf rest hp hid]
          exact ⟨hrest, rfl, Or.inl rfl⟩
        · rw [step_task_none routes addr s ht]; exact hkeep

/-- Under every schedule, a session on a stream that holds no frame with id `0`
sends nothing and logs nothing but read errors. -/
theorem run_without_envelope (routes : List ((String × String) × route)) (addr : Addr) :
    ∀ (sched : List Pick) (s : Session),
      (∀ buf, ReadResult.frame 0 buf ∉ s.dev.ib.pending) →
      (run routes addr sched s).dev.og = s.dev.og ∧
        ∀ ev ∈ (run routes addr sched s).trace, ev ∈ s.trace ∨ ∃ m, ev = Event.error m := by
  intro sched
  induction sched with
  | nil => intro s _; exact ⟨rfl, fun ev hev => Or.inl hev⟩
  | cons p sched ih =>
    intro s h
    obtain ⟨h1, h2, h3⟩ := step_without_envelope routes addr p s h
    obtain ⟨i1, i2⟩ := ih (step routes addr p s) h1
    refine ⟨by simpa only [run, h2] using i1, fun ev hev => ?_⟩
    rcases i2 ev (by simpa only [run] using hev) with hin | hm
    · rcases h3 with h3 | ⟨m, h3⟩
      · exact Or.inl (h3 ▸ hin)
      · rw [h3] at hin
        rcases List.mem_append.mp hin with hin | hin
        · exact Or.inl hin
        · exact Or.inr ⟨m, by simpa using hin⟩
    · exact Or.inr hm

/-- The session up to the `break` when the loop first drops a frame: leading
picks of request tasks do nothing, as none has been started. -/
theorem runUntilBreak_drop_first (routes : List ((String × String) × route)) (addr : Addr)
    (d : device) (tr : List Event) (id : Int) (buf : PkBuf) (rest : List ReadResult)
    (hp : d.ib.pending = ReadResult.frame id buf :: rest) (hid : id ≠ MaxInt32) :
    ∀ sched : List Pick,
      runUntilBreak routes addr sched { dev := d, trace := tr, looping := true, tasks := 0 } =
        runUntilBreak routes addr (sched.dropWhile (fun p => decide (p = Pick.task))).tail
          { dev := { d with ib := { pending := rest } }, trace := tr, looping := true,
            tasks := 0 } := by
  have hstep : loopStep { dev := d, trace := tr, looping := true, tasks := 0 } =
      { dev := { d with ib := { pending := rest } }, trace := tr, looping := true, tasks := 0 } :=
    loopStep_other _ id buf rest hp hid
  intro sched
  induction sched with
  | nil =>
    simp only [runUntilBreak, List.dropWhile_nil, List.tail_nil, hp, List.length_cons]
    rw [loopOnly]
    simp only [if_true, hstep]
  | cons p sched ih =>
    cases p with
    | loop => simp [runUntilBreak, step, hstep, List.dropWhile_cons]
    | task => simpa [runUntilBreak, step, List.dropWhile_cons] using ih

/-- After an iteration of the loop on a stream the peer has left, the loop is
not running. -/
theorem step_loop_disconnected (routes : List ((String × String) × route)) (addr : Addr)
    (t : Session) (h : t.dev.ib.pending = []) :
    (step routes addr Pick.loop t).looping = false := by
  by_cases hl : t.looping = true
  · rw [step_loop routes addr t hl, loopStep_fail t "EOF" _ (Read_nil _ h)]
  · rw [step_loop_ended routes addr t hl]
    simpa using hl

/-! ## The session loop: the claims -/

/-- C2, on the code: with `post /ping` registered and a handler that returns no
error, the reads sentinel, envelope of `post /ping`, disconnect give two
outcomes. When the loop, which does not wait for the request task it has
started, reads on before the task does, it takes the envelope for a frame
without the sentinel id and drops it: the handler is never called and no status
frame is written. Only when the task reads first is the handler called once and
the status code `0` written. -/
theorem registered_request_lost_when_loop_reads_envelope :
    run okApp.routes 7 [Pick.loop, Pick.loop, Pick.loop, Pick.task]
        (startSession [sentinelFrame, envelopeFrame "post" "/ping"]) =
      { dev := { addr := 7, ib := { pending := [] }, og := { sent := [] } },
        trace := [Event.error "EOF", Event.error "EOF"], looping := false, tasks := 0 } ∧
    run okApp.routes 7 [Pick.loop, Pick.task, Pick.loop]
        (startSession [sentinelFrame, envelopeFrame "post" "/ping"]) =
      { dev := { addr := 7, ib := { pending := [] }, og := { sent := [WriteInt32 0] } },
        trace := [Event.request 7 "/ping" "post", Event.call "post" "/ping", Event.error "EOF"],
        looping := false, tasks := 0 } := by
  constructor <;> decide

/-- C3, on the code: with nothing registered under `get /ping`, the reads
sentinel, envelope of `get /ping`, disconnect give two outcomes. When the loop
reads on before the request task does, it drops the envelope and no status
frame is written at all. Only when the task reads first is the status code `1`
written. -/
theorem unregistered_request_lost_when_loop_reads_envelope :
    run okApp.routes 7 [Pick.loop, Pick.loop, Pick.loop, Pick.task]
        (startSession [sentinelFrame, envelopeFrame "get" "/ping"]) =
      { dev := { addr := 7, ib := { pending := [] }, og := { sent := [] } },
        trace := [Event.error "EOF", Event.error "EOF"], looping := false, tasks := 0 } ∧
    run okApp.routes 7 [Pick.loop, Pick.task, Pick.loop]
        (startSession [sentinelFrame, envelopeFrame "get" "/ping"]) =
      { dev := { addr := 7, ib := { pending := [] }, og := { sent := [WriteInt32 1] } },
        trace := [Event.request 7 "/ping" "get", Event.missing "get" "/ping", Event.error "EOF"],
        looping := false, tasks := 0 } := by
  constructor <;> decide

/-- C10: a frame with a non-zero id is never treated as a request envelope,
whichever goroutine reads it, whatever its payload and whatever routes are
registered. The step that reads it logs nothing (no request line, so no
lookup), calls no handler and sends nothing; read by a request task, right
after the sentinel that started the task, it is consumed and the task ends.
And under every schedule a session on a stream without a frame of id `0` sends
nothing and logs nothing but read errors. -/
theorem nonzero_id_frame_never_dispatched (routes : List ((String × String) × route))
    (addr : Addr) :
    (∀ (p : Pick) (s : Session) (id : Int) (buf : PkBuf) (rest : List ReadResult),
      s.dev.ib.pending = ReadResult.frame id buf :: rest → id ≠ 0 →
      (step routes addr p s).trace = s.trace ∧
      (step routes addr p s).dev.og = s.dev.og ∧
      (0 < s.tasks → step routes addr Pick.task s =
        { s with dev := { s.dev with ib := { pending := rest } }, tasks := s.tasks - 1 })) ∧
    (∀ (sched : List Pick) (s : Session),
      (∀ buf, ReadResult.frame 0 buf ∉ s.dev.ib.pending) →
      (run routes addr sched s).dev.og = s.dev.og ∧
      ∀ ev ∈ (run routes addr sched s).trace, ev ∈ s.trace ∨ ∃ m, ev = Event.error m) := by
  refine ⟨fun p s id buf rest hp hid => ?_, run_without_envelope routes addr⟩
  have htask : 0 < s.tasks → step routes addr Pick.task s =
      { s with dev := { s.dev with ib := { pending := rest } }, tasks := s.tasks - 1 } := by
    intro ht
    rw [step_task routes addr s ht, taskStep_other routes addr s id buf rest hp hid]
  cases p with
  | loop =>
    by_cases hl : s.looping = true
    · by_cases hm : id = MaxInt32
      · subst hm
        rw [step_loop routes addr s hl, loopStep_sentinel s buf rest hp]
        exact ⟨rfl, rfl, htask⟩
      · rw [step_loop routes addr s hl, loopStep_other s id buf rest hp hm]
        exact ⟨rfl, rfl, htask⟩
    · rw [step_loop_ended routes addr s hl]
      exact ⟨rfl, rfl, htask⟩
  | task =>
    by_cases ht : 0 < s.tasks
    · rw [htask ht]
      exact ⟨rfl, rfl, fun _ => rfl⟩
    · refine ⟨?_, ?_, htask⟩ <;> rw [step_task_none routes addr s ht]

/-- Witness of `nonzero_id_frame_never_dispatched`: the envelope of a registered
route sent with id `5` after a sentinel, read by the request task; and a whole
session on the sentinel followed by that frame. -/
theorem nonzero_id_frame_never_dispatched_witness :
    step okApp.routes 7 Pick.task
        { dev := deviceWith [ReadResult.frame 5 [Field.str "post", Field.str "/ping"]],
          trace := [], looping := true, tasks := 1 } =
      { dev := deviceWith [], trace := [], looping := true, tasks := 0 } ∧
    (run okApp.routes 7 [Pick.loop, Pick.task, Pick.loop]
        (startSession [sentinelFrame,
          ReadResult.frame 5 [Field.str "post", Field.str "/ping"]])).dev.og = { sent := [] } :=
  ⟨((nonzero_id_frame_never_dispatched okApp.routes 7).1 Pick.task
      { dev := deviceWith [ReadResult.frame 5 [Field.str "post", Field.str "/ping"]],
        trace := [], looping := true, tasks := 1 }
      5 [Field.str "post", Field.str "/ping"] [] rfl (by decide)).2.2 (by decide),
    ((nonzero_id_frame_never_dispatched okApp.routes 7).2 [Pick.loop, Pick.task, Pick.loop]
      (startSession [sentinelFrame, ReadResult.frame 5 [Field.str "post", Field.str "/ping"]])
      (by intro buf h; simp [startSession, deviceWith, sentinelFrame, MaxInt32] at h)).1⟩

/-- C4: a frame whose id is not the sentinel, read by the session loop, is
dropped: the iteration consumes it, logs nothing, starts no request task, calls
nothing, sends nothing and the loop goes on; so the session goes on as the
session without that frame does, under every schedule, and `load` gives what it
gives without that frame. -/
theorem non_sentinel_frame_dropped (a : Application) (addr : Addr) (d : device)
    (id : Int) (buf : PkBuf) (rest : List ReadResult)
    (hd : mapGet a.devices addr = some d)
    (hp : d.ib.pending = ReadResult.frame id buf :: rest) (hid : id ≠ MaxInt32) :
    (∀ (tr : List Event) (n : Nat) (sched : List Pick),
      step a.routes addr Pick.loop { dev := d, trace := tr, looping := true, tasks := n } =
        { dev := { d with ib := { pending := rest } }, trace := tr, looping := true, tasks := n } ∧
      run a.routes addr (Pick.loop :: sched)
          { dev := d, trace := tr, looping := true, tasks := n } =
        run a.routes addr sched
          { dev := { d with ib := { pending := rest } }, trace := tr, looping := true,
            tasks := n }) ∧
    ∀ sched : List Pick,
      a.load addr sched = Application.load
        { a with devices := mapSet a.devices addr { d with ib := { pending := rest } } } addr
        (sched.dropWhile (fun p => decide (p = Pick.task))).tail := by
  have hstep : ∀ (tr : List Event) (n : Nat),
      step a.routes addr Pick.loop { dev := d, trace := tr, looping := true, tasks := n } =
        { dev := { d with ib := { pending := rest } }, trace := tr, looping := true,
          tasks := n } := by
    intro tr n
    rw [step_loop a.routes addr _ rfl]
    exact loopStep_other _ id buf rest hp hid
  refine ⟨fun tr n sched => ⟨hstep tr n, by rw [run, hstep tr n]⟩, fun sched => ?_⟩
  rw [load_of_device a addr d sched hd,
    load_of_device { a with devices := mapSet a.devices addr { d with ib := { pending := rest } } }
      addr { d with ib := { pending := rest } } _ (mapGet_mapSet_self _ _ _)]
  simp only [runUntilBreak_drop_first a.routes addr d a.trace id buf rest hp hid sched,
    mapSet_mapSet]

/-- Witness of `non_sentinel_frame_dropped`: a frame with id `3` ahead of a
request. -/
theorem non_sentinel_frame_dropped_witness :
    step noiseApp.routes 7 Pick.loop
        (startSession [ReadResult.frame 3 [], sentinelFrame, envelopeFrame "post" "/ping"]) =
      startSession [sentinelFrame, envelopeFrame "post" "/ping"] ∧
    noiseApp.load 7 [Pick.loop, Pick.loop, Pick.task, Pick.loop] = Application.load
      { noiseApp with
        devices := mapSet noiseApp.devices 7 (deviceWith [sentinelFrame, envelopeFrame "post" "/ping"]) }
      7 [Pick.loop, Pick.task, Pick.loop] :=
  ⟨((non_sentinel_frame_dropped noiseApp 7
      (deviceWith [ReadResult.frame 3 [], sentinelFrame, envelopeFrame "post" "/ping"])
      3 [] [sentinelFrame, envelopeFrame "post" "/ping"] rfl rfl (by decide)).1 [] 0 []).1,
    (non_sentinel_frame_dropped noiseApp 7
      (deviceWith [ReadResult.frame 3 [], sentinelFrame, envelopeFrame "post" "/ping"])
      3 [] [sentinelFrame, envelopeFrame "post" "/ping"] rfl rfl (by decide)).2
      [Pick.loop, Pick.loop, Pick.task, Pick.loop]⟩

/-- C7, as stated, fails: on the reads sentinel, disconnect, the read of the
envelope by the request task fails, and after it the loop is still running at
its `Read`, awaiting a marker; it then makes a read of its own, and it is that
read, failing, which ends the session. A failed envelope read does not stop the
loop. -/
theorem envelope_read_failure_leaves_loop_running :
    run okApp.routes 7 [Pick.loop, Pick.task] (startSession [sentinelFrame]) =
      { dev := deviceWith [], trace := [Event.error "EOF"], looping := true, tasks := 0 } ∧
    run okApp.routes 7 [Pick.loop, Pick.task, Pick.loop] (startSession [sentinelFrame]) =
      { dev := deviceWith [], trace := [Event.error "EOF", Event.error "EOF"],
        looping := false, tasks := 0 } ∧
    ¬ ∀ (routes : List ((String × String) × route)) (addr : Addr) (s : Session) (e : String)
        (ib1 : Inbound),
        s.looping = true → 0 < s.tasks → s.dev.ib.Read = (ReadResult.fail e, ib1) →
        (step routes addr Pick.task s).looping = false := by
  refine ⟨by decide, by decide, fun hall => ?_⟩
  have h := hall okApp.routes 7
    { dev := deviceWith [], trace := [], looping := true, tasks := 1 } "EOF" { pending := [] }
    rfl (by decide) rfl
  exact absurd h (by decide)

/-- C7, amended: when the read of the envelope frame, made by the request task
started at a sentinel, fails with `e`, the task logs `e` and ends, with no
request line, no handler call and no status frame, and the loop is not stopped
by it: it stays as it was, at its `Read` awaiting a marker when it was running.
The loop leaves exactly in an iteration whose own read fails; when the peer has
disconnected that is its next iteration. -/
theorem envelope_read_failure_ends_task_only (routes : List ((String × String) × route))
    (addr : Addr) (s : Session) (e : String) (ib1 : Inbound)
    (ht : 0 < s.tasks) (hr : s.dev.ib.Read = (ReadResult.fail e, ib1)) :
    step routes addr Pick.task s =
        { s with dev := { s.dev with ib := ib1 }, trace := s.trace ++ [Event.error e],
                 tasks := s.tasks - 1 } ∧
      (step routes addr Pick.task s).looping = s.looping ∧
      (∀ (p : Pick) (t : Session), t.looping = true →
        ((step routes addr p t).looping = false ↔
          p = Pick.loop ∧ ∃ e1 ib2, t.dev.ib.Read = (ReadResult.fail e1, ib2))) ∧
      (s.dev.ib.pending = [] →
        (step routes addr Pick.loop (step routes addr Pick.task s)).looping = false) := by
  have h1 : step routes addr Pick.task s =
      { s with dev := { s.dev with ib := ib1 }, trace := s.trace ++ [Event.error e],
               tasks := s.tasks - 1 } := by
    rw [step_task routes addr s ht, taskStep_fail routes addr s e ib1 hr]
  refine ⟨h1, by rw [h1], fun p t hl => ?_, fun hnil => ?_⟩
  · cases p with
    | loop =>
      rw [step_loop routes addr t hl, loopStep_looping t hl]
      simp
    | task =>
      have hsame : (step routes addr Pick.task t).looping = t.looping := by
        by_cases h0 : 0 < t.tasks
        · rw [step_task routes addr t h0, taskStep_looping]
        · rw [step_task_none routes addr t h0]
      rw [hsame, hl]
      simp
  · have hr2 := Read_nil _ hnil
    rw [hr] at hr2
    have hib : ib1 = s.dev.ib := (Prod.mk.inj hr2).2
    rw [h1]
    apply step_loop_disconnected
    show ib1.pending = []
    rw [hib]
    exact hnil

/-- Witness of `envelope_read_failure_ends_task_only`: the request task started
at a sentinel that the peer sent before it disconnected. -/
theorem envelope_read_failure_ends_task_only_witness :
    step okApp.routes 7 Pick.task
        { dev := deviceWith [], trace := [], looping := true, tasks := 1 } =
      { dev := deviceWith [], trace := [Event.error "EOF"], looping := true, tasks := 0 } ∧
    (step okApp.routes 7 Pick.loop (step okApp.routes 7 Pick.task
        { dev := deviceWith [], trace := [], looping := true, tasks := 1 })).looping = false :=
  ⟨(envelope_read_failure_ends_task_only okApp.routes 7
      { dev := deviceWith [], trace := [], looping := true, tasks := 1 } "EOF" { pending := [] }
      (by decide) rfl).1,
    (envelope_read_failure_ends_task_only okApp.routes 7
      { dev := deviceWith [], trace := [], looping := true, tasks := 1 } "EOF" { pending := [] }
      (by decide) rfl).2.2.2 rfl⟩

/-- C5: for a peer address that is not in the registry, `deviceHanler` returns,
under every schedule, and once it has returned the registry has no entry for
that address; so a later `deviceHanler` call for a connection with the same
address takes the create branch: it stores the fresh device built from that
connection, runs `load` on it, and returns. -/
theorem device_removed_when_session_ends (a : Application) (conn : TCPConn)
    (sched : List Pick) (h : mapGet a.devices conn.RemoteAddr = none) :
    ∃ a1, a.deviceHanler conn sched = some a1 ∧
      mapGet a1.devices conn.RemoteAddr = none ∧
      ∀ (conn2 : TCPConn) (sched2 : List Pick), conn2.RemoteAddr = conn.RemoteAddr →
        mapGet (a1.storeDevice conn2).devices conn2.RemoteAddr = some (newDevice conn2) ∧
        a1.deviceHanler conn2 sched2 =
          ((a1.storeDevice conn2).load conn2.RemoteAddr sched2).map
            (fun x => x.deleteDevice conn2.RemoteAddr) ∧
        ∃ a2, a1.deviceHanler conn2 sched2 = some a2 ∧
          mapGet a2.devices conn2.RemoteAddr = none := by
  have key : ∀ (b : Application) (c : TCPConn) (sc : List Pick),
      mapGet b.devices c.RemoteAddr = none →
      mapGet (b.storeDevice c).devices c.RemoteAddr = some (newDevice c) ∧
      b.deviceHanler c sc =
          ((b.storeDevice c).load c.RemoteAddr sc).map (fun x => x.deleteDevice c.RemoteAddr) ∧
      ∃ b1, b.deviceHanler c sc = some b1 ∧ mapGet b1.devices c.RemoteAddr = none := by
    intro b c sc hb
    have hs : mapGet (b.storeDevice c).devices c.RemoteAddr = some (newDevice c) := by
      simp [Application.storeDevice, mapGet_mapSet_self]
    have hl := load_of_device (b.storeDevice c) c.RemoteAddr (newDevice c) sc hs
    have hdh : b.deviceHanler c sc =
        ((b.storeDevice c).load c.RemoteAddr sc).map (fun x => x.deleteDevice c.RemoteAddr) := by
      simp only [Application.deviceHanler, hb, hl, Option.map_some']
    refine ⟨hs, hdh, ?_⟩
    rw [hdh, hl]
    exact ⟨_, rfl, by simp [Application.deleteDevice, mapGet_mapDelete_self]⟩
  obtain ⟨_, _, a1, ha1, hnone⟩ := key a conn sched h
  refine ⟨a1, ha1, hnone, fun conn2 sched2 heq => ?_⟩
  exact key a1 conn2 sched2 (by rw [heq]; exact hnone)

/-- Witness of `device_removed_when_session_ends`: the connection `pingConn`
served by an application that had no device, the request task reading first. -/
theorem device_removed_when_session_ends_witness :
    ∃ a1, okApp.deviceHanler pingConn [Pick.loop, Pick.task, Pick.loop] = some a1 ∧
      mapGet a1.devices pingConn.RemoteAddr = none ∧
      ∀ (conn2 : TCPConn) (sched2 : List Pick), conn2.RemoteAddr = pingConn.RemoteAddr →
        mapGet (a1.storeDevice conn2).devices conn2.RemoteAddr = some (newDevice conn2) ∧
        a1.deviceHanler conn2 sched2 =
          ((a1.storeDevice conn2).load conn2.RemoteAddr sched2).map
            (fun x => x.deleteDevice conn2.RemoteAddr) ∧
        ∃ a2, a1.deviceHanler conn2 sched2 = some a2 ∧
          mapGet a2.devices conn2.RemoteAddr = none :=
  device_removed_when_session_ends okApp pingConn [Pick.loop, Pick.task, Pick.loop] rfl

end Dotio
